import Mathlib

/-!
Verification development for the keyframe-animation module of a glTF
document model (src/v2/json/animation.rs). The data model and the
validation logic of `Animation` and `Channel` are embedded from the
source; the surrounding machinery (path tracker, error type, sequence
validation, the serde-derived deserializers) lives outside the provided
source tree and is modelled from the specification.
-/

namespace Gltf

/-- Modelled from the spec: one segment of a Path Tracker locator, either
a field name or an array index. The module source builds paths through
the JsonPath type of the validation module, which is not part of the
provided source. -/
inductive PathSeg where
  | field (name : String)
  | index (i : Nat)
deriving DecidableEq, Repr

/-- Modelled from the spec: the Path Tracker, an ordered append-only list
of segments from the document root to a value. -/
structure JsonPath where
  segs : List PathSeg
deriving DecidableEq, Repr

/-- Modelled from the spec: the empty path at the document root. -/
def JsonPath.root : JsonPath := ⟨[]⟩

/-- Modelled from the spec: append a field-name segment, returning a new
path and leaving the original untouched. -/
def JsonPath.field (p : JsonPath) (name : String) : JsonPath :=
  ⟨p.segs ++ [PathSeg.field name]⟩

/-- Modelled from the spec: append an array-index segment. -/
def JsonPath.index (p : JsonPath) (i : Nat) : JsonPath :=
  ⟨p.segs ++ [PathSeg.index i]⟩

/-- Modelled from the spec: the error taxonomy of the validation module.
Within this subsystem the only kind produced is IndexOutOfBounds. -/
inductive ErrorKind where
  | indexOutOfBounds
deriving DecidableEq, Repr

/-- Modelled from the spec: one violation occurrence, a path plus a kind. -/
structure Error where
  path : JsonPath
  kind : ErrorKind
deriving DecidableEq, Repr

/-- Modelled from the spec: the Error constructor used by the animation
module, producing an IndexOutOfBounds error at the given path. -/
def Error.index_out_of_bounds (path : JsonPath) : Error :=
  ⟨path, ErrorKind.indexOutOfBounds⟩

/-- Modelled from the spec: a JSON value, the source representation that
records are parsed from. Only the shapes the animation module needs are
included; numbers appear here as unsigned integers because the module
only parses index values from them. -/
inductive Json where
  | null
  | bool (b : Bool)
  | num (n : Nat)
  | str (s : String)
  | arr (elems : List Json)
  | obj (fields : List (String × Json))

/-- Modelled from the spec: the opaque application specific extras
payload; it is kept verbatim when present. -/
def Extras := Option Json

/-- Modelled from the spec: a scene node, out of scope here beyond being
the target collection of a document-scoped index. -/
structure Node where
  unused : Unit := ()

/-- Modelled from the spec: an accessor, out of scope here beyond being
the target collection of document-scoped indices. -/
structure Accessor where
  unused : Unit := ()

/-- Modelled from the spec: the Typed Index, a non-owning zero-based
unsigned integer reference tagged with the kind of collection it
addresses; it exposes only the raw value and performs no bounds check. -/
structure Index (α : Type) where
  value : Nat

/-- Extension specific data for `Sampler`. -/
structure SamplerExtensions where
  _allow_unknown_fields : Unit := ()

/-- Defines a keyframe graph but not its target. -/
structure Sampler where
  extensions : SamplerExtensions := {}
  extras : Extras := none
  input : Index Accessor
  interpolation : String
  output : Index Accessor

/-- Default value of the interpolation field of `Sampler`. -/
def sampler_interpolation_default : String := "LINEAR"

/-- Extension specific data for `Target`. -/
structure TargetExtensions where
  _allow_unknown_fields : Unit := ()

/-- The index of the node and TRS property that an animation channel
targets. -/
structure Target where
  extensions : TargetExtensions := {}
  extras : Extras := none
  node : Index Node
  path : String

/-- Extension specific data for `Channel`. -/
structure ChannelExtensions where
  _allow_unknown_fields : Unit := ()

/-- Targets an animation sampler at a node property. -/
structure Channel where
  sampler : Index Sampler
  target : Target
  extensions : ChannelExtensions := {}
  extras : Extras := none

/-- Extension specific data for `Animation`. -/
structure AnimationExtensions where
  _allow_unknown_fields : Unit := ()

/-- A keyframe animation. -/
structure Animation where
  extensions : AnimationExtensions := {}
  extras : Extras := none
  channels : List Channel
  name : Option String := none
  samplers : List Sampler

/-- Modelled from the spec: the document root owning every top-level
collection, read-only during validation. Only the collections the
animation module can reference are represented. -/
structure Root where
  animations : List Animation := []
  nodes : List Node := []
  accessors : List Accessor := []

/-- Channel performs no local checks of its own: its validate is a nop
that leaves the sink unchanged. -/
def Channel.validate (_channel : Channel) (_root : Root) (_path : JsonPath)
    (sink : List Error) : List Error :=
  sink

/-- Modelled from the spec: the derived Validate of Sampler checks only
its own strictly local fields, which the spec does not elaborate into any
emitted error; document-scoped accessor bounds are the responsibility of
a higher-level validator. It therefore leaves the sink unchanged. -/
def Sampler.validate (_sampler : Sampler) (_root : Root) (_path : JsonPath)
    (sink : List Error) : List Error :=
  sink

/-- Modelled from the spec: sequences validate by validating each element
at path.index i, i ascending from 0, in order, threading the sink. -/
def validateSeq {α : Type} (f : α → Root → JsonPath → List Error → List Error) :
    List α → Root → JsonPath → Nat → List Error → List Error
  | [], _, _, _, sink => sink
  | x :: xs, root, path, i, sink =>
      validateSeq f xs root path (i + 1) (f x root (path.index i) sink)

/-- The error emitted by the cross-reference loop of Animation for the
channel at the given position: an IndexOutOfBounds at the parent path
extended with the formatted field channels[index].sampler. -/
def Animation.channelError (path : JsonPath) (index : Nat) : Error :=
  Error.index_out_of_bounds (path.field ("channels[" ++ toString index ++ "].sampler"))

/-- The cross-reference loop of Animation.validate: for every channel at
position index, if its sampler index is not below samplersLen, append an
IndexOutOfBounds error to the sink. -/
def Animation.crossRefLoop (path : JsonPath) (samplersLen : Nat) :
    List Channel → Nat → List Error → List Error
  | [], _, sink => sink
  | channel :: rest, index, sink =>
      Animation.crossRefLoop path samplersLen rest (index + 1)
        (if channel.sampler.value ≥ samplersLen then
          sink ++ [Animation.channelError path index]
        else sink)

/-- Animation.validate: first the sampler sequence at field samplers,
then the channel sequence at field channels, then the cross-reference
bounds check of every channel against the length of the sibling sampler
sequence. -/
def Animation.validate (a : Animation) (root : Root) (path : JsonPath)
    (sink : List Error) : List Error :=
  Animation.crossRefLoop path a.samplers.length a.channels 0
    (validateSeq Channel.validate a.channels root (path.field "channels")
      0 (validateSeq Sampler.validate a.samplers root (path.field "samplers") 0 sink))

/-- Whether the channel at position i of the animation holds a sampler
index that is out of bounds for the samplers of that same animation. -/
def Animation.channelOOB (a : Animation) (i : Nat) : Bool :=
  match a.channels[i]? with
  | some channel => decide (channel.sampler.value ≥ a.samplers.length)
  | none => false

/-- The errors the cross-reference loop contributes, as a pure list. -/
def Animation.crossRefList (path : JsonPath) (samplersLen : Nat) :
    List Channel → Nat → List Error
  | [], _ => []
  | channel :: rest, index =>
      (if channel.sampler.value ≥ samplersLen then
        [Animation.channelError path index]
      else []) ++ Animation.crossRefList path samplersLen rest (index + 1)

/-- Out-of-bounds test against a plain channel list, used by the lemmas
about the cross-reference loop. -/
def oobAt (samplersLen : Nat) (cs : List Channel) (j : Nat) : Bool :=
  match cs[j]? with
  | some channel => decide (channel.sampler.value ≥ samplersLen)
  | none => false

/-- Decimal digit characters of a natural number, most significant digit
first; the reference function the core printing routine agrees with. -/
def decRepr (n : Nat) : List Char :=
  if n < 10 then [Nat.digitChar n]
  else decRepr (n / 10) ++ [Nat.digitChar (n % 10)]
decreasing_by exact Nat.div_lt_self (by omega) (by omega)

theorem decRepr_lt (n : Nat) (h : n < 10) : decRepr n = [Nat.digitChar n] := by
  rw [decRepr]
  exact if_pos h

theorem decRepr_ge (n : Nat) (h : ¬n < 10) :
    decRepr n = decRepr (n / 10) ++ [Nat.digitChar (n % 10)] := by
  rw [decRepr]
  exact if_neg h

theorem decRepr_ne_nil (n : Nat) : decRepr n ≠ [] := by
  by_cases h : n < 10
  · rw [decRepr_lt n h]
    simp
  · rw [decRepr_ge n h]
    simp

theorem toDigitsCore_eq_decRepr :
    ∀ (fuel n : Nat) (ds : List Char), n < fuel →
      Nat.toDigitsCore 10 fuel n ds = decRepr n ++ ds := by
  intro fuel
  induction fuel with
  | zero => intro n ds h; omega
  | succ f ih =>
    intro n ds h
    by_cases hn : n < 10
    · have hdiv : n / 10 = 0 := Nat.div_eq_of_lt hn
      have hmod : n % 10 = n := Nat.mod_eq_of_lt hn
      simp [Nat.toDigitsCore, hdiv, hmod, decRepr, hn]
    · have hdiv : n / 10 ≠ 0 := by
        intro h0
        exact hn (by omega : n < 10)
      have hdivlt : n / 10 < f := by
        have h1 : n / 10 < n := Nat.div_lt_self (by omega) (by omega)
        omega
      rw [show Nat.toDigitsCore 10 (f + 1) n ds =
            if n / 10 = 0 then Nat.digitChar (n % 10) :: ds
            else Nat.toDigitsCore 10 f (n / 10) (Nat.digitChar (n % 10) :: ds) from rfl]
      rw [if_neg hdiv, ih (n / 10) _ hdivlt, decRepr_ge n hn]
      simp

theorem digitChar_inj : ∀ a < 10, ∀ b < 10,
    Nat.digitChar a = Nat.digitChar b → a = b := by decide

theorem append_singleton_inj {α : Type} {xs ys : List α} {x y : α}
    (h : xs ++ [x] = ys ++ [y]) : xs = ys ∧ x = y := by
  have h2 := congrArg List.reverse h
  simp only [List.reverse_append, List.reverse_singleton, List.singleton_append,
    List.cons.injEq] at h2
  exact ⟨List.reverse_injective h2.2, h2.1⟩

theorem decRepr_inj : ∀ (a b : Nat), decRepr a = decRepr b → a = b := by
  intro a
  induction a using Nat.strong_induction_on with
  | _ a ih =>
    intro b h
    by_cases ha : a < 10 <;> by_cases hb : b < 10
    · rw [decRepr_lt a ha, decRepr_lt b hb] at h
      injection h with h1 h2
      exact digitChar_inj a ha b hb h1
    · rw [decRepr_lt a ha, decRepr_ge b hb] at h
      have hlen := congrArg List.length h
      simp only [List.length_append, List.length_cons, List.length_nil,
        List.length_singleton] at hlen
      exact absurd (List.eq_nil_of_length_eq_zero (by omega)) (decRepr_ne_nil (b / 10))
    · rw [decRepr_ge a ha, decRepr_lt b hb] at h
      have hlen := congrArg List.length h
      simp only [List.length_append, List.length_cons, List.length_nil,
        List.length_singleton] at hlen
      exact absurd (List.eq_nil_of_length_eq_zero (by omega)) (decRepr_ne_nil (a / 10))
    · rw [decRepr_ge a ha, decRepr_ge b hb] at h
      obtain ⟨h1, h2⟩ := append_singleton_inj h
      have hdiv : a / 10 = b / 10 :=
        ih (a / 10) (Nat.div_lt_self (by omega) (by omega)) (b / 10) h1
      have hmod : a % 10 = b % 10 :=
        digitChar_inj (a % 10) (Nat.mod_lt _ (by omega)) (b % 10) (Nat.mod_lt _ (by omega)) h2
      omega

theorem asString_inj {a b : List Char} (h : a.asString = b.asString) : a = b := by
  have h2 : String.mk a = String.mk b := h
  injection h2

theorem nat_repr_inj {a b : Nat} (h : Nat.repr a = Nat.repr b) : a = b := by
  unfold Nat.repr Nat.toDigits at h
  rw [toDigitsCore_eq_decRepr (a + 1) a [] (Nat.lt_succ_self a),
    toDigitsCore_eq_decRepr (b + 1) b [] (Nat.lt_succ_self b)] at h
  simp only [List.append_nil] at h
  exact decRepr_inj a b (asString_inj h)

theorem channelError_inj {path : JsonPath} {i j : Nat}
    (h : Animation.channelError path i = Animation.channelError path j) : i = j := by
  unfold Animation.channelError Error.index_out_of_bounds JsonPath.field at h
  simp only [Error.mk.injEq, JsonPath.mk.injEq, and_true,
    List.append_cancel_left_eq, List.cons.injEq, PathSeg.field.injEq] at h
  have hdata := congrArg String.data h
  simp only [String.data_append, List.append_assoc] at hdata
  have hmid : (toString i).data = (toString j).data :=
    List.append_cancel_right (List.append_cancel_left hdata)
  exact nat_repr_inj (String.ext hmid)

theorem channelError_eq_iff {path : JsonPath} {i j : Nat} :
    Animation.channelError path i = Animation.channelError path j ↔ i = j :=
  ⟨channelError_inj, fun h => by rw [h]⟩

theorem crossRefLoop_eq_append (path : JsonPath) (samplersLen : Nat) :
    ∀ (cs : List Channel) (index : Nat) (sink : List Error),
      Animation.crossRefLoop path samplersLen cs index sink =
        sink ++ Animation.crossRefList path samplersLen cs index := by
  intro cs
  induction cs with
  | nil => intro index sink; simp [Animation.crossRefLoop, Animation.crossRefList]
  | cons channel rest ih =>
    intro index sink
    rw [Animation.crossRefLoop, Animation.crossRefList, ih]
    by_cases h : channel.sampler.value ≥ samplersLen
    · rw [if_pos h, if_pos h]
      simp
    · rw [if_neg h, if_neg h]
      simp

theorem validateSeq_id {α : Type}
    (f : α → Root → JsonPath → List Error → List Error)
    (hf : ∀ x root path sink, f x root path sink = sink) :
    ∀ (xs : List α) (root : Root) (path : JsonPath) (i : Nat) (sink : List Error),
      validateSeq f xs root path i sink = sink := by
  intro xs
  induction xs with
  | nil => intro root path i sink; rfl
  | cons x rest ih =>
    intro root path i sink
    rw [validateSeq, hf, ih]

theorem validate_eq_append (a : Animation) (root : Root) (path : JsonPath)
    (sink : List Error) :
    a.validate root path sink =
      sink ++ Animation.crossRefList path a.samplers.length a.channels 0 := by
  rw [Animation.validate,
    validateSeq_id Sampler.validate (fun _ _ _ _ => rfl),
    validateSeq_id Channel.validate (fun _ _ _ _ => rfl),
    crossRefLoop_eq_append]

theorem oobAt_nil (samplersLen : Nat) (j : Nat) : oobAt samplersLen [] j = false := by
  simp [oobAt]

theorem oobAt_cons_zero (samplersLen : Nat) (channel : Channel) (rest : List Channel) :
    oobAt samplersLen (channel :: rest) 0 =
      decide (channel.sampler.value ≥ samplersLen) := by
  simp [oobAt]

theorem oobAt_cons_succ (samplersLen : Nat) (channel : Channel) (rest : List Channel)
    (j : Nat) :
    oobAt samplersLen (channel :: rest) (j + 1) = oobAt samplersLen rest j := by
  simp [oobAt]

theorem count_crossRefList (path : JsonPath) (samplersLen : Nat) (k : Nat) :
    ∀ (cs : List Channel) (index : Nat),
      List.count (Animation.channelError path k)
          (Animation.crossRefList path samplersLen cs index) =
        if index ≤ k ∧ oobAt samplersLen cs (k - index) = true then 1 else 0 := by
  intro cs
  induction cs with
  | nil =>
    intro index
    simp [Animation.crossRefList, oobAt_nil]
  | cons channel rest ih =>
    intro index
    rw [Animation.crossRefList, List.count_append, ih (index + 1)]
    rcases Nat.lt_trichotomy index k with hlt | heq | hgt
    · have hne : Animation.channelError path k ≠ Animation.channelError path index := by
        intro he
        exact absurd (channelError_inj he) (by omega)
      have hzero : List.count (Animation.channelError path k)
          (if channel.sampler.value ≥ samplersLen then
            [Animation.channelError path index]
          else []) = 0 := by
        by_cases hc : channel.sampler.value ≥ samplersLen <;>
          simp [hc, List.count_cons, hne]
      rw [hzero, Nat.zero_add]
      have hsub : k - index = (k - (index + 1)) + 1 := by omega
      have hcond : (index ≤ k ∧ oobAt samplersLen (channel :: rest) (k - index) = true) ↔
          (index + 1 ≤ k ∧ oobAt samplersLen rest (k - (index + 1)) = true) := by
        rw [hsub, oobAt_cons_succ]
        constructor
        · rintro ⟨_, hx⟩
          exact ⟨by omega, hx⟩
        · rintro ⟨_, hx⟩
          exact ⟨by omega, hx⟩
      exact (if_congr hcond rfl rfl).symm
    · subst heq
      have hz : index - index = 0 := by omega
      have hfail : ¬(index + 1 ≤ index ∧
          oobAt samplersLen rest (index - (index + 1)) = true) := by
        rintro ⟨hx, _⟩
        omega
      rw [if_neg hfail, hz]
      by_cases hc : channel.sampler.value ≥ samplersLen
      · rw [if_pos hc]
        have hmem : oobAt samplersLen (channel :: rest) 0 = true := by
          rw [oobAt_cons_zero]
          simpa using hc
        rw [if_pos ⟨Nat.le_refl index, hmem⟩]
        simp
      · rw [if_neg hc]
        have hmem : ¬(index ≤ index ∧ oobAt samplersLen (channel :: rest) 0 = true) := by
          rintro ⟨_, hx⟩
          rw [oobAt_cons_zero] at hx
          exact hc (by simpa using hx)
        rw [if_neg hmem]
        simp
    · have hfail1 : ¬(index + 1 ≤ k ∧
          oobAt samplersLen rest (k - (index + 1)) = true) := by
        rintro ⟨hx, _⟩
        omega
      have hfail2 : ¬(index ≤ k ∧
          oobAt samplersLen (channel :: rest) (k - index) = true) := by
        rintro ⟨hx, _⟩
        omega
      rw [if_neg hfail1, if_neg hfail2]
      have hne : Animation.channelError path k ≠ Animation.channelError path index := by
        intro he
        exact absurd (channelError_inj he) (by omega)
      by_cases hc : channel.sampler.value ≥ samplersLen <;>
        simp [hc, List.count_cons, hne]

theorem channelOOB_eq_oobAt (a : Animation) (i : Nat) :
    a.channelOOB i = oobAt a.samplers.length a.channels i := rfl

theorem count_validate (a : Animation) (root : Root) (path : JsonPath) (k : Nat) :
    List.count (Animation.channelError path k) (a.validate root path []) =
      if a.channelOOB k = true then 1 else 0 := by
  rw [validate_eq_append, List.nil_append,
    count_crossRefList path a.samplers.length k a.channels 0]
  simp [channelOOB_eq_oobAt]

theorem mem_validate_iff (a : Animation) (root : Root) (path : JsonPath) (k : Nat) :
    Animation.channelError path k ∈ a.validate root path [] ↔
      a.channelOOB k = true := by
  constructor
  · intro hmem
    by_contra hno
    have hc := count_validate a root path k
    rw [if_neg hno] at hc
    exact absurd (List.count_eq_zero.mp hc) (by simpa using hmem)
  · intro hoob
    have hc := count_validate a root path k
    rw [if_pos hoob] at hc
    by_contra hno
    rw [List.count_eq_zero.mpr hno] at hc
    omega

theorem crossRefList_all_in_bounds (path : JsonPath) (samplersLen : Nat) :
    ∀ (cs : List Channel) (index : Nat),
      (∀ c ∈ cs, c.sampler.value < samplersLen) →
      Animation.crossRefList path samplersLen cs index = [] := by
  intro cs
  induction cs with
  | nil => intro index _; rfl
  | cons channel rest ih =>
    intro index hall
    rw [Animation.crossRefList]
    have hc : ¬channel.sampler.value ≥ samplersLen := by
      have := hall channel (List.mem_cons_self channel rest)
      omega
    rw [if_neg hc, List.nil_append]
    exact ih (index + 1) (fun c hc => hall c (List.mem_cons_of_mem channel hc))

theorem length_crossRefList (path : JsonPath) (samplersLen : Nat) :
    ∀ (cs : List Channel) (index : Nat),
      (Animation.crossRefList path samplersLen cs index).length =
        cs.countP (fun c => decide (c.sampler.value ≥ samplersLen)) := by
  intro cs
  induction cs with
  | nil => intro index; rfl
  | cons channel rest ih =>
    intro index
    rw [Animation.crossRefList, List.length_append, ih (index + 1),
      List.countP_cons]
    by_cases hc : channel.sampler.value ≥ samplersLen
    · simp [hc]
      omega
    · simp [hc]

theorem mem_crossRefList (path : JsonPath) (samplersLen : Nat) :
    ∀ (cs : List Channel) (index j : Nat),
      oobAt samplersLen cs j = true →
      Animation.channelError path (index + j) ∈
        Animation.crossRefList path samplersLen cs index := by
  intro cs
  induction cs with
  | nil =>
    intro index j h
    rw [oobAt_nil] at h
    exact absurd h (by simp)
  | cons channel rest ih =>
    intro index j h
    rw [Animation.crossRefList]
    cases j with
    | zero =>
      rw [oobAt_cons_zero] at h
      have hc : channel.sampler.value ≥ samplersLen := by simpa using h
      rw [if_pos hc]
      simp
    | succ j =>
      rw [oobAt_cons_succ] at h
      have hmem := ih (index + 1) j h
      have harith : index + 1 + j = index + (j + 1) := by omega
      rw [harith] at hmem
      exact List.mem_append_right _ hmem

theorem ordered_crossRefList (path : JsonPath) (samplersLen : Nat) :
    ∀ (cs : List Channel) (index j1 j2 : Nat), j1 < j2 →
      oobAt samplersLen cs j1 = true →
      oobAt samplersLen cs j2 = true →
      ∃ l1 l2 l3, Animation.crossRefList path samplersLen cs index =
        l1 ++ Animation.channelError path (index + j1) ::
          (l2 ++ Animation.channelError path (index + j2) :: l3) := by
  intro cs
  induction cs with
  | nil =>
    intro index j1 j2 _ h1 _
    rw [oobAt_nil] at h1
    exact absurd h1 (by simp)
  | cons channel rest ih =>
    intro index j1 j2 hlt h1 h2
    cases j1 with
    | zero =>
      rw [oobAt_cons_zero] at h1
      have hc : channel.sampler.value ≥ samplersLen := by simpa using h1
      obtain ⟨j2p, rfl⟩ : ∃ j2p, j2 = j2p + 1 := ⟨j2 - 1, by omega⟩
      rw [oobAt_cons_succ] at h2
      have hmem := mem_crossRefList path samplersLen rest (index + 1) j2p h2
      obtain ⟨s, t, hst⟩ := List.append_of_mem hmem
      refine ⟨[], s, t, ?_⟩
      rw [Animation.crossRefList, if_pos hc, hst]
      have harith : index + 1 + j2p = index + (j2p + 1) := by omega
      simp [harith]
    | succ j1p =>
      obtain ⟨j2p, rfl⟩ : ∃ j2p, j2 = j2p + 1 := ⟨j2 - 1, by omega⟩
      rw [oobAt_cons_succ] at h1
      rw [oobAt_cons_succ] at h2
      obtain ⟨l1, l2, l3, hl⟩ :=
        ih (index + 1) j1p j2p (by omega) h1 h2
      refine ⟨(if channel.sampler.value ≥ samplersLen then
        [Animation.channelError path index] else []) ++ l1, l2, l3, ?_⟩
      rw [Animation.crossRefList, hl]
      have ha1 : index + 1 + j1p = index + (j1p + 1) := by omega
      have ha2 : index + 1 + j2p = index + (j2p + 1) := by omega
      rw [ha1, ha2, List.append_assoc]

/-- Boolean success test for a parse result. -/
def exceptOk {ε α : Type} : Except ε α → Bool
  | Except.ok _ => true
  | Except.error _ => false

/-- Modelled from the spec: deserialization of a typed index, which wraps
an unsigned 32-bit integer source value. -/
def Index.deserialize {α : Type} (j : Json) : Except String (Index α) :=
  match j with
  | Json.num n =>
      if n < 2 ^ 32 then Except.ok ⟨n⟩
      else Except.error "integer out of range"
  | _ => Except.error "expected an unsigned integer"

/-- Modelled from the spec: deserialization of a plain string field. -/
def deserializeString (j : Json) : Except String String :=
  match j with
  | Json.str s => Except.ok s
  | _ => Except.error "expected a string"

/-- Modelled from the spec: deserialization of an optional string field. -/
def deserializeOptString (j : Json) : Except String (Option String) :=
  match j with
  | Json.null => Except.ok none
  | Json.str s => Except.ok (some s)
  | _ => Except.error "expected a string or null"

/-- Modelled from the spec: deserialization of the opaque extras payload,
which accepts any value and keeps it verbatim. -/
def deserializeExtras (j : Json) : Except String Extras :=
  match j with
  | Json.null => Except.ok none
  | v => Except.ok (some v)

/-- Modelled from the spec: deserialization of a unit placeholder field,
which only accepts a null source value. -/
def deserializeUnit (j : Json) : Except String Unit :=
  match j with
  | Json.null => Except.ok ()
  | _ => Except.error "invalid type for unit field"

/-- Modelled from the spec: the derived field loop of SamplerExtensions.
The record does not deny unknown fields, so any field other than the
declared unit placeholder is accepted and discarded; the placeholder
itself only accepts a null source value. -/
def SamplerExtensions.deserializeFields :
    List (String × Json) → Except String SamplerExtensions
  | [] => Except.ok {}
  | (k, v) :: rest =>
      if k = "_allow_unknown_fields" then
        match deserializeUnit v with
        | Except.error e => Except.error e
        | Except.ok _ => SamplerExtensions.deserializeFields rest
      else SamplerExtensions.deserializeFields rest

/-- Modelled from the spec: the derived deserializer of SamplerExtensions. -/
def SamplerExtensions.deserialize (j : Json) : Except String SamplerExtensions :=
  match j with
  | Json.obj fields => SamplerExtensions.deserializeFields fields
  | _ => Except.error "expected an object"

/-- Modelled from the spec: the derived field loop of TargetExtensions,
accepting and discarding unknown fields. -/
def TargetExtensions.deserializeFields :
    List (String × Json) → Except String TargetExtensions
  | [] => Except.ok {}
  | (k, v) :: rest =>
      if k = "_allow_unknown_fields" then
        match deserializeUnit v with
        | Except.error e => Except.error e
        | Except.ok _ => TargetExtensions.deserializeFields rest
      else TargetExtensions.deserializeFields rest

/-- Modelled from the spec: the derived deserializer of TargetExtensions. -/
def TargetExtensions.deserialize (j : Json) : Except String TargetExtensions :=
  match j with
  | Json.obj fields => TargetExtensions.deserializeFields fields
  | _ => Except.error "expected an object"

/-- Modelled from the spec: the derived field loop of ChannelExtensions,
accepting and discarding unknown fields. -/
def ChannelExtensions.deserializeFields :
    List (String × Json) → Except String ChannelExtensions
  | [] => Except.ok {}
  | (k, v) :: rest =>
      if k = "_allow_unknown_fields" then
        match deserializeUnit v with
        | Except.error e => Except.error e
        | Except.ok _ => ChannelExtensions.deserializeFields rest
      else ChannelExtensions.deserializeFields rest

/-- Modelled from the spec: the derived deserializer of ChannelExtensions. -/
def ChannelExtensions.deserialize (j : Json) : Except String ChannelExtensions :=
  match j with
  | Json.obj fields => ChannelExtensions.deserializeFields fields
  | _ => Except.error "expected an object"

/-- Modelled from the spec: the derived field loop of AnimationExtensions,
accepting and discarding unknown fields. -/
def AnimationExtensions.deserializeFields :
    List (String × Json) → Except String AnimationExtensions
  | [] => Except.ok {}
  | (k, v) :: rest =>
      if k = "_allow_unknown_fields" then
        match deserializeUnit v with
        | Except.error e => Except.error e
        | Except.ok _ => AnimationExtensions.deserializeFields rest
      else AnimationExtensions.deserializeFields rest

/-- Modelled from the spec: the derived deserializer of AnimationExtensions. -/
def AnimationExtensions.deserialize (j : Json) : Except String AnimationExtensions :=
  match j with
  | Json.obj fields => AnimationExtensions.deserializeFields fields
  | _ => Except.error "expected an object"

/-- Field names declared by the Sampler record. -/
def samplerFieldNames : List String :=
  ["extensions", "extras", "input", "interpolation", "output"]

/-- Partially collected fields of a Sampler record during parsing. -/
structure SamplerAcc where
  extensions : Option SamplerExtensions := none
  extras : Option Extras := none
  input : Option (Index Accessor) := none
  interpolation : Option String := none
  output : Option (Index Accessor) := none

/-- Modelled from the spec: the derived field loop of Sampler. Unknown
fields are rejected because the record denies them; duplicates are
rejected; each known field value is parsed by its own deserializer. -/
def Sampler.deserializeFields :
    List (String × Json) → SamplerAcc → Except String SamplerAcc
  | [], acc => Except.ok acc
  | (k, v) :: rest, acc =>
      if k = "extensions" then
        match acc.extensions with
        | some _ => Except.error "duplicate field extensions"
        | none =>
          match SamplerExtensions.deserialize v with
          | Except.error e => Except.error e
          | Except.ok x => Sampler.deserializeFields rest { acc with extensions := some x }
      else if k = "extras" then
        match acc.extras with
        | some _ => Except.error "duplicate field extras"
        | none =>
          match deserializeExtras v with
          | Except.error e => Except.error e
          | Except.ok x => Sampler.deserializeFields rest { acc with extras := some x }
      else if k = "input" then
        match acc.input with
        | some _ => Except.error "duplicate field input"
        | none =>
          match Index.deserialize v with
          | Except.error e => Except.error e
          | Except.ok x => Sampler.deserializeFields rest { acc with input := some x }
      else if k = "interpolation" then
        match acc.interpolation with
        | some _ => Except.error "duplicate field interpolation"
        | none =>
          match deserializeString v with
          | Except.error e => Except.error e
          | Except.ok x => Sampler.deserializeFields rest { acc with interpolation := some x }
      else if k = "output" then
        match acc.output with
        | some _ => Except.error "duplicate field output"
        | none =>
          match Index.deserialize v with
          | Except.error e => Except.error e
          | Except.ok x => Sampler.deserializeFields rest { acc with output := some x }
      else Except.error ("unknown field " ++ k)

/-- Modelled from the spec: the derived deserializer of Sampler. Required
fields must be present; the interpolation field defaults through
sampler_interpolation_default when absent. -/
def Sampler.deserialize (j : Json) : Except String Sampler :=
  match j with
  | Json.obj fields =>
      match Sampler.deserializeFields fields {} with
      | Except.error e => Except.error e
      | Except.ok acc =>
        match acc.input, acc.output with
        | some input, some output =>
            Except.ok { extensions := acc.extensions.getD {},
                        extras := acc.extras.getD none,
                        input := input,
                        interpolation := acc.interpolation.getD sampler_interpolation_default,
                        output := output }
        | none, _ => Except.error "missing field input"
        | some _, none => Except.error "missing field output"
  | _ => Except.error "expected an object"

/-- Field names declared by the Target record. -/
def targetFieldNames : List String :=
  ["extensions", "extras", "node", "path"]

/-- Partially collected fields of a Target record during parsing. -/
structure TargetAcc where
  extensions : Option TargetExtensions := none
  extras : Option Extras := none
  node : Option (Index Node) := none
  path : Option String := none

/-- Modelled from the spec: the derived field loop of Target, rejecting
unknown fields and duplicates. -/
def Target.deserializeFields :
    List (String × Json) → TargetAcc → Except String TargetAcc
  | [], acc => Except.ok acc
  | (k, v) :: rest, acc =>
      if k = "extensions" then
        match acc.extensions with
        | some _ => Except.error "duplicate field extensions"
        | none =>
          match TargetExtensions.deserialize v with
          | Except.error e => Except.error e
          | Except.ok x => Target.deserializeFields rest { acc with extensions := some x }
      else if k = "extras" then
        match acc.extras with
        | some _ => Except.error "duplicate field extras"
        | none =>
          match deserializeExtras v with
          | Except.error e => Except.error e
          | Except.ok x => Target.deserializeFields rest { acc with extras := some x }
      else if k = "node" then
        match acc.node with
        | some _ => Except.error "duplicate field node"
        | none =>
          match Index.deserialize v with
          | Except.error e => Except.error e
          | Except.ok x => Target.deserializeFields rest { acc with node := some x }
      else if k = "path" then
        match acc.path with
        | some _ => Except.error "duplicate field path"
        | none =>
          match deserializeString v with
          | Except.error e => Except.error e
          | Except.ok x => Target.deserializeFields rest { acc with path := some x }
      else Except.error ("unknown field " ++ k)

/-- Modelled from the spec: the derived deserializer of Target. -/
def Target.deserialize (j : Json) : Except String Target :=
  match j with
  | Json.obj fields =>
      match Target.deserializeFields fields {} with
      | Except.error e => Except.error e
      | Except.ok acc =>
        match acc.node, acc.path with
        | some node, some path =>
            Except.ok { extensions := acc.extensions.getD {},
                        extras := acc.extras.getD none,
                        node := node,
                        path := path }
        | none, _ => Except.error "missing field node"
        | some _, none => Except.error "missing field path"
  | _ => Except.error "expected an object"

/-- Field names declared by the Channel record. -/
def channelFieldNames : List String :=
  ["sampler", "target", "extensions", "extras"]

/-- Partially collected fields of a Channel record during parsing. -/
structure ChannelAcc where
  sampler : Option (Index Sampler) := none
  target : Option Target := none
  extensions : Option ChannelExtensions := none
  extras : Option Extras := none

/-- Modelled from the spec: the derived field loop of Channel, rejecting
unknown fields and duplicates. -/
def Channel.deserializeFields :
    List (String × Json) → ChannelAcc → Except String ChannelAcc
  | [], acc => Except.ok acc
  | (k, v) :: rest, acc =>
      if k = "sampler" then
        match acc.sampler with
        | some _ => Except.error "duplicate field sampler"
        | none =>
          match Index.deserialize v with
          | Except.error e => Except.error e
          | Except.ok x => Channel.deserializeFields rest { acc with sampler := some x }
      else if k = "target" then
        match acc.target with
        | some _ => Except.error "duplicate field target"
        | none =>
          match Target.deserialize v with
          | Except.error e => Except.error e
          | Except.ok x => Channel.deserializeFields rest { acc with target := some x }
      else if k = "extensions" then
        match acc.extensions with
        | some _ => Except.error "duplicate field extensions"
        | none =>
          match ChannelExtensions.deserialize v with
          | Except.error e => Except.error e
          | Except.ok x => Channel.deserializeFields rest { acc with extensions := some x }
      else if k = "extras" then
        match acc.extras with
        | some _ => Except.error "duplicate field extras"
        | none =>
          match deserializeExtras v with
          | Except.error e => Except.error e
          | Except.ok x => Channel.deserializeFields rest { acc with extras := some x }
      else Except.error ("unknown field " ++ k)

/-- Modelled from the spec: the derived deserializer of Channel. -/
def Channel.deserialize (j : Json) : Except String Channel :=
  match j with
  | Json.obj fields =>
      match Channel.deserializeFields fields {} with
      | Except.error e => Except.error e
      | Except.ok acc =>
        match acc.sampler, acc.target with
        | some sampler, some target =>
            Except.ok { sampler := sampler,
                        target := target,
                        extensions := acc.extensions.getD {},
                        extras := acc.extras.getD none }
        | none, _ => Except.error "missing field sampler"
        | some _, none => Except.error "missing field target"
  | _ => Except.error "expected an object"

/-- Modelled from the spec: element-wise deserialization of a sequence,
failing on the first element that fails. -/
def deserializeList {α : Type} (f : Json → Except String α) :
    List Json → Except String (List α)
  | [] => Except.ok []
  | j :: rest =>
      match f j with
      | Except.error e => Except.error e
      | Except.ok x =>
        match deserializeList f rest with
        | Except.error e => Except.error e
        | Except.ok xs => Except.ok (x :: xs)

/-- Modelled from the spec: deserialization of the channel sequence of an
Animation from an array source value. -/
def deserializeChannelList (j : Json) : Except String (List Channel) :=
  match j with
  | Json.arr elems => deserializeList Channel.deserialize elems
  | _ => Except.error "expected an array"

/-- Modelled from the spec: deserialization of the sampler sequence of an
Animation from an array source value. -/
def deserializeSamplerList (j : Json) : Except String (List Sampler) :=
  match j with
  | Json.arr elems => deserializeList Sampler.deserialize elems
  | _ => Except.error "expected an array"

/-- Field names declared by the Animation record. -/
def animationFieldNames : List String :=
  ["extensions", "extras", "channels", "name", "samplers"]

/-- Partially collected fields of an Animation record during parsing. -/
structure AnimationAcc where
  extensions : Option AnimationExtensions := none
  extras : Option Extras := none
  channels : Option (List Channel) := none
  name : Option (Option String) := none
  samplers : Option (List Sampler) := none

/-- Modelled from the spec: the derived field loop of Animation, rejecting
unknown fields and duplicates. -/
def Animation.deserializeFields :
    List (String × Json) → AnimationAcc → Except String AnimationAcc
  | [], acc => Except.ok acc
  | (k, v) :: rest, acc =>
      if k = "extensions" then
        match acc.extensions with
        | some _ => Except.error "duplicate field extensions"
        | none =>
          match AnimationExtensions.deserialize v with
          | Except.error e => Except.error e
          | Except.ok x => Animation.deserializeFields rest { acc with extensions := some x }
      else if k = "extras" then
        match acc.extras with
        | some _ => Except.error "duplicate field extras"
        | none =>
          match deserializeExtras v with
          | Except.error e => Except.error e
          | Except.ok x => Animation.deserializeFields rest { acc with extras := some x }
      else if k = "channels" then
        match acc.channels with
        | some _ => Except.error "duplicate field channels"
        | none =>
          match deserializeChannelList v with
          | Except.error e => Except.error e
          | Except.ok xs => Animation.deserializeFields rest { acc with channels := some xs }
      else if k = "name" then
        match acc.name with
        | some _ => Except.error "duplicate field name"
        | none =>
          match deserializeOptString v with
          | Except.error e => Except.error e
          | Except.ok x => Animation.deserializeFields rest { acc with name := some x }
      else if k = "samplers" then
        match acc.samplers with
        | some _ => Except.error "duplicate field samplers"
        | none =>
          match deserializeSamplerList v with
          | Except.error e => Except.error e
          | Except.ok xs => Animation.deserializeFields rest { acc with samplers := some xs }
      else Except.error ("unknown field " ++ k)

/-- Modelled from the spec: the derived deserializer of Animation. -/
def Animation.deserialize (j : Json) : Except String Animation :=
  match j with
  | Json.obj fields =>
      match Animation.deserializeFields fields {} with
      | Except.error e => Except.error e
      | Except.ok acc =>
        match acc.channels, acc.samplers with
        | some channels, some samplers =>
            Except.ok { extensions := acc.extensions.getD {},
                        extras := acc.extras.getD none,
                        channels := channels,
                        name := acc.name.getD none,
                        samplers := samplers }
        | none, _ => Except.error "missing field channels"
        | some _, none => Except.error "missing field samplers"
  | _ => Except.error "expected an object"

theorem sampler_fields_step {k : String} {v : Json} {rest : List (String × Json)}
    {acc res : SamplerAcc}
    (h : Sampler.deserializeFields ((k, v) :: rest) acc = Except.ok res) :
    k ∈ samplerFieldNames ∧
      ∃ acc2, Sampler.deserializeFields rest acc2 = Except.ok res := by
  rw [Sampler.deserializeFields] at h
  repeat' split at h
  all_goals first
    | exact Except.noConfusion h
    | exact ⟨by simp_all [samplerFieldNames], ⟨_, h⟩⟩

theorem sampler_fields_keys :
    ∀ (fields : List (String × Json)) (acc res : SamplerAcc),
      Sampler.deserializeFields fields acc = Except.ok res →
      ∀ kv ∈ fields, kv.1 ∈ samplerFieldNames := by
  intro fields
  induction fields with
  | nil =>
    intro acc res _ kv hkv
    exact absurd hkv (List.not_mem_nil kv)
  | cons p rest ih =>
    intro acc res h kv hkv
    obtain ⟨k, v⟩ := p
    obtain ⟨hk, acc2, h2⟩ := sampler_fields_step h
    rcases List.mem_cons.mp hkv with rfl | hm
    · exact hk
    · exact ih acc2 res h2 kv hm

theorem target_fields_step {k : String} {v : Json} {rest : List (String × Json)}
    {acc res : TargetAcc}
    (h : Target.deserializeFields ((k, v) :: rest) acc = Except.ok res) :
    k ∈ targetFieldNames ∧
      ∃ acc2, Target.deserializeFields rest acc2 = Except.ok res := by
  rw [Target.deserializeFields] at h
  repeat' split at h
  all_goals first
    | exact Except.noConfusion h
    | exact ⟨by simp_all [targetFieldNames], ⟨_, h⟩⟩

theorem target_fields_keys :
    ∀ (fields : List (String × Json)) (acc res : TargetAcc),
      Target.deserializeFields fields acc = Except.ok res →
      ∀ kv ∈ fields, kv.1 ∈ targetFieldNames := by
  intro fields
  induction fields with
  | nil =>
    intro acc res _ kv hkv
    exact absurd hkv (List.not_mem_nil kv)
  | cons p rest ih =>
    intro acc res h kv hkv
    obtain ⟨k, v⟩ := p
    obtain ⟨hk, acc2, h2⟩ := target_fields_step h
    rcases List.mem_cons.mp hkv with rfl | hm
    · exact hk
    · exact ih acc2 res h2 kv hm

theorem channel_fields_step {k : String} {v : Json} {rest : List (String × Json)}
    {acc res : ChannelAcc}
    (h : Channel.deserializeFields ((k, v) :: rest) acc = Except.ok res) :
    k ∈ channelFieldNames ∧
      ∃ acc2, Channel.deserializeFields rest acc2 = Except.ok res := by
  rw [Channel.deserializeFields] at h
  repeat' split at h
  all_goals first
    | exact Except.noConfusion h
    | exact ⟨by simp_all [channelFieldNames], ⟨_, h⟩⟩

theorem channel_fields_keys :
    ∀ (fields : List (String × Json)) (acc res : ChannelAcc),
      Channel.deserializeFields fields acc = Except.ok res →
      ∀ kv ∈ fields, kv.1 ∈ channelFieldNames := by
  intro fields
  induction fields with
  | nil =>
    intro acc res _ kv hkv
    exact absurd hkv (List.not_mem_nil kv)
  | cons p rest ih =>
    intro acc res h kv hkv
    obtain ⟨k, v⟩ := p
    obtain ⟨hk, acc2, h2⟩ := channel_fields_step h
    rcases List.mem_cons.mp hkv with rfl | hm
    · exact hk
    · exact ih acc2 res h2 kv hm

theorem animation_fields_step {k : String} {v : Json} {rest : List (String × Json)}
    {acc res : AnimationAcc}
    (h : Animation.deserializeFields ((k, v) :: rest) acc = Except.ok res) :
    k ∈ animationFieldNames ∧
      ∃ acc2, Animation.deserializeFields rest acc2 = Except.ok res := by
  rw [Animation.deserializeFields] at h
  repeat' split at h
  all_goals first
    | exact Except.noConfusion h
    | exact ⟨by simp_all [animationFieldNames], ⟨_, h⟩⟩

theorem animation_fields_keys :
    ∀ (fields : List (String × Json)) (acc res : AnimationAcc),
      Animation.deserializeFields fields acc = Except.ok res →
      ∀ kv ∈ fields, kv.1 ∈ animationFieldNames := by
  intro fields
  induction fields with
  | nil =>
    intro acc res _ kv hkv
    exact absurd hkv (List.not_mem_nil kv)
  | cons p rest ih =>
    intro acc res h kv hkv
    obtain ⟨k, v⟩ := p
    obtain ⟨hk, acc2, h2⟩ := animation_fields_step h
    rcases List.mem_cons.mp hkv with rfl | hm
    · exact hk
    · exact ih acc2 res h2 kv hm

theorem sampler_unknown_not_ok (fields : List (String × Json)) (k : String) (v : Json)
    (hmem : (k, v) ∈ fields) (hk : k ∉ samplerFieldNames) :
    exceptOk (Sampler.deserialize (Json.obj fields)) = false := by
  rw [Sampler.deserialize]
  cases hd : Sampler.deserializeFields fields {} with
  | error e => rfl
  | ok acc => exact absurd (sampler_fields_keys fields {} acc hd (k, v) hmem) hk

theorem target_unknown_not_ok (fields : List (String × Json)) (k : String) (v : Json)
    (hmem : (k, v) ∈ fields) (hk : k ∉ targetFieldNames) :
    exceptOk (Target.deserialize (Json.obj fields)) = false := by
  rw [Target.deserialize]
  cases hd : Target.deserializeFields fields {} with
  | error e => rfl
  | ok acc => exact absurd (target_fields_keys fields {} acc hd (k, v) hmem) hk

theorem channel_unknown_not_ok (fields : List (String × Json)) (k : String) (v : Json)
    (hmem : (k, v) ∈ fields) (hk : k ∉ channelFieldNames) :
    exceptOk (Channel.deserialize (Json.obj fields)) = false := by
  rw [Channel.deserialize]
  cases hd : Channel.deserializeFields fields {} with
  | error e => rfl
  | ok acc => exact absurd (channel_fields_keys fields {} acc hd (k, v) hmem) hk

theorem animation_unknown_not_ok (fields : List (String × Json)) (k : String) (v : Json)
    (hmem : (k, v) ∈ fields) (hk : k ∉ animationFieldNames) :
    exceptOk (Animation.deserialize (Json.obj fields)) = false := by
  rw [Animation.deserialize]
  cases hd : Animation.deserializeFields fields {} with
  | error e => rfl
  | ok acc => exact absurd (animation_fields_keys fields {} acc hd (k, v) hmem) hk

theorem sampler_fields_interp :
    ∀ (fields : List (String × Json)) (acc res : SamplerAcc),
      Sampler.deserializeFields fields acc = Except.ok res →
      (∀ kv ∈ fields, kv.1 ≠ "interpolation") →
      res.interpolation = acc.interpolation := by
  intro fields
  induction fields with
  | nil =>
    intro acc res h _
    rw [Sampler.deserializeFields] at h
    injection h with h1
    rw [h1]
  | cons p rest ih =>
    intro acc res h hni
    obtain ⟨k, v⟩ := p
    have hhead : k ≠ "interpolation" := by
      have := hni (k, v) (List.mem_cons_self _ _)
      simpa using this
    have hrest : ∀ kv ∈ rest, kv.1 ≠ "interpolation" :=
      fun kv hkv => hni kv (List.mem_cons_of_mem _ hkv)
    rw [Sampler.deserializeFields] at h
    repeat' split at h
    all_goals first
      | exact Except.noConfusion h
      | exact absurd ‹k = "interpolation"› hhead
      | exact (ih _ res h hrest).trans rfl

theorem sampler_omitted_interp_default (fields : List (String × Json))
    (hni : ∀ kv ∈ fields, kv.1 ≠ "interpolation") (s : Sampler)
    (h : Sampler.deserialize (Json.obj fields) = Except.ok s) :
    s.interpolation = "LINEAR" := by
  rw [Sampler.deserialize] at h
  cases hd : Sampler.deserializeFields fields {} with
  | error e =>
    simp only [hd] at h
    exact Except.noConfusion h
  | ok acc =>
    simp only [hd] at h
    have hint : acc.interpolation = none :=
      sampler_fields_interp fields {} acc hd hni
    cases hin : acc.input with
    | none =>
      simp only [hin] at h
      exact Except.noConfusion h
    | some input =>
      cases hout : acc.output with
      | none =>
        simp only [hin, hout] at h
        exact Except.noConfusion h
      | some output =>
        simp only [hin, hout] at h
        injection h with h1
        rw [← h1, hint]
        rfl

theorem samplerExtensions_fields_ok :
    ∀ (fields : List (String × Json)),
      (∀ kv ∈ fields, kv.1 ≠ "_allow_unknown_fields") →
      SamplerExtensions.deserializeFields fields = Except.ok {} := by
  intro fields
  induction fields with
  | nil => intro _; rfl
  | cons p rest ih =>
    intro h
    obtain ⟨k, v⟩ := p
    rw [SamplerExtensions.deserializeFields]
    rw [if_neg (by simpa using h (k, v) (List.mem_cons_self _ _))]
    exact ih (fun kv hkv => h kv (List.mem_cons_of_mem _ hkv))

theorem targetExtensions_fields_ok :
    ∀ (fields : List (String × Json)),
      (∀ kv ∈ fields, kv.1 ≠ "_allow_unknown_fields") →
      TargetExtensions.deserializeFields fields = Except.ok {} := by
  intro fields
  induction fields with
  | nil => intro _; rfl
  | cons p rest ih =>
    intro h
    obtain ⟨k, v⟩ := p
    rw [TargetExtensions.deserializeFields]
    rw [if_neg (by simpa using h (k, v) (List.mem_cons_self _ _))]
    exact ih (fun kv hkv => h kv (List.mem_cons_of_mem _ hkv))

theorem channelExtensions_fields_ok :
    ∀ (fields : List (String × Json)),
      (∀ kv ∈ fields, kv.1 ≠ "_allow_unknown_fields") →
      ChannelExtensions.deserializeFields fields = Except.ok {} := by
  intro fields
  induction fields with
  | nil => intro _; rfl
  | cons p rest ih =>
    intro h
    obtain ⟨k, v⟩ := p
    rw [ChannelExtensions.deserializeFields]
    rw [if_neg (by simpa using h (k, v) (List.mem_cons_self _ _))]
    exact ih (fun kv hkv => h kv (List.mem_cons_of_mem _ hkv))

theorem animationExtensions_fields_ok :
    ∀ (fields : List (String × Json)),
      (∀ kv ∈ fields, kv.1 ≠ "_allow_unknown_fields") →
      AnimationExtensions.deserializeFields fields = Except.ok {} := by
  intro fields
  induction fields with
  | nil => intro _; rfl
  | cons p rest ih =>
    intro h
    obtain ⟨k, v⟩ := p
    rw [AnimationExtensions.deserializeFields]
    rw [if_neg (by simpa using h (k, v) (List.mem_cons_self _ _))]
    exact ih (fun kv hkv => h kv (List.mem_cons_of_mem _ hkv))

/-- A concrete channel target used by the witness scenarios. -/
def exTarget : Target :=
  { node := ⟨0⟩, path := "translation" }

/-- A concrete sampler used by the witness scenarios. -/
def exSampler : Sampler :=
  { input := ⟨0⟩, interpolation := "LINEAR", output := ⟨0⟩ }

/-- The concrete scenario of the spec: one sampler, two channels whose
sampler indices are 0 and 1. -/
def exAnimation : Animation :=
  { channels := [{ sampler := ⟨0⟩, target := exTarget },
                 { sampler := ⟨1⟩, target := exTarget }],
    samplers := [exSampler] }

/-- An in-bounds animation used by the witness of the no-false-positive
claim. -/
def exAnimationOk : Animation :=
  { channels := [{ sampler := ⟨0⟩, target := exTarget }],
    samplers := [exSampler] }

/-- An animation with out-of-bounds channels at positions 0 and 2, used
by the witness of the ordering claim. -/
def exAnimation3 : Animation :=
  { channels := [{ sampler := ⟨5⟩, target := exTarget },
                 { sampler := ⟨0⟩, target := exTarget },
                 { sampler := ⟨7⟩, target := exTarget }],
    samplers := [exSampler] }

/-- Claim C1: for every Animation and every channel position i whose
sampler index value is at least the length of the samplers sequence of
that Animation, validate reports exactly one IndexOutOfBounds error whose
path is the animation path extended with channels[i].sampler; this holds
independently for each such channel. -/
theorem claim_C1_oob_channel_exactly_one_error (a : Animation) (root : Root)
    (path : JsonPath) (i : Nat) (h : a.channelOOB i = true) :
    List.count (Animation.channelError path i) (a.validate root path []) = 1 := by
  rw [count_validate, if_pos h]

/-- Witness for claim C1, on the concrete scenario of the spec: channel 1
references sampler 1 against a one-element sampler sequence, so exactly
one error is reported at channels[1].sampler and none at
channels[0].sampler. -/
theorem claim_C1_witness :
    exAnimation.channelOOB 1 = true ∧
    List.count (Animation.channelError JsonPath.root 1)
        (exAnimation.validate {} JsonPath.root []) = 1 ∧
    List.count (Animation.channelError JsonPath.root 0)
        (exAnimation.validate {} JsonPath.root []) = 0 :=
  ⟨by decide,
   claim_C1_oob_channel_exactly_one_error exAnimation {} JsonPath.root 1 (by decide),
   by decide⟩

/-- Claim C2: for every Animation in which every channel holds a sampler
index strictly below the length of the samplers sequence, validate
reports no error at all: the sink is returned unchanged. -/
theorem claim_C2_in_bounds_no_errors (a : Animation) (root : Root)
    (path : JsonPath) (sink : List Error)
    (h : ∀ c ∈ a.channels, c.sampler.value < a.samplers.length) :
    a.validate root path sink = sink := by
  rw [validate_eq_append, crossRefList_all_in_bounds path _ a.channels 0 h,
    List.append_nil]

/-- Witness for claim C2, on a concrete in-bounds animation. -/
theorem claim_C2_witness :
    (∀ c ∈ exAnimationOk.channels,
      c.sampler.value < exAnimationOk.samplers.length) ∧
    exAnimationOk.validate {} JsonPath.root [] = [] :=
  ⟨by decide,
   claim_C2_in_bounds_no_errors exAnimationOk {} JsonPath.root [] (by decide)⟩

/-- Claim C3: errors are appended to the sink in ascending order of
channel position: for out-of-bounds channels at positions i and j with
i below j, the error for i precedes the error for j in the output. -/
theorem claim_C3_errors_in_document_order (a : Animation) (root : Root)
    (path : JsonPath) (sink : List Error) (i j : Nat) (hij : i < j)
    (hi : a.channelOOB i = true) (hj : a.channelOOB j = true) :
    ∃ l1 l2 l3, a.validate root path sink =
      l1 ++ Animation.channelError path i ::
        (l2 ++ Animation.channelError path j :: l3) := by
  rw [validate_eq_append]
  rw [channelOOB_eq_oobAt] at hi hj
  obtain ⟨l1, l2, l3, hl⟩ :=
    ordered_crossRefList path a.samplers.length a.channels 0 i j hij hi hj
  rw [hl]
  exact ⟨sink ++ l1, l2, l3, by simp⟩

/-- Witness for claim C3, on a concrete animation with out-of-bounds
channels at positions 0 and 2. -/
theorem claim_C3_witness :
    exAnimation3.channelOOB 0 = true ∧
    exAnimation3.channelOOB 2 = true ∧
    ∃ l1 l2 l3, exAnimation3.validate {} JsonPath.root [] =
      l1 ++ Animation.channelError JsonPath.root 0 ::
        (l2 ++ Animation.channelError JsonPath.root 2 :: l3) :=
  ⟨by decide, by decide,
   claim_C3_errors_in_document_order exAnimation3 {} JsonPath.root [] 0 2
     (by decide) (by decide) (by decide)⟩

/-- Claim C4: validate first validates the samplers sequence at field
samplers, then the channels sequence at field channels, and only then
appends the errors of its own cross-reference loop, so every child error
precedes every cross-reference error and children are validated
unconditionally. -/
theorem claim_C4_children_before_cross_refs (a : Animation) (root : Root)
    (path : JsonPath) (sink : List Error) :
    a.validate root path sink =
      validateSeq Channel.validate a.channels root (path.field "channels") 0
          (validateSeq Sampler.validate a.samplers root (path.field "samplers") 0 sink) ++
        Animation.crossRefList path a.samplers.length a.channels 0 := by
  rw [Animation.validate, crossRefLoop_eq_append]

/-- Claim C5: validate is total and accumulates everything: the prior
sink contents are preserved as a prefix, and one error is produced for
every out-of-bounds channel in a single invocation. -/
theorem claim_C5_accumulate_all (a : Animation) (root : Root) (path : JsonPath)
    (sink : List Error) :
    a.validate root path sink = sink ++ a.validate root path [] ∧
    (a.validate root path []).length =
      a.channels.countP (fun c => decide (c.sampler.value ≥ a.samplers.length)) := by
  constructor
  · rw [validate_eq_append, validate_eq_append, List.nil_append]
  · rw [validate_eq_append, List.nil_append, length_crossRefList]

/-- Claim C6: the channel-sampler bounds check is scoped to the owning
Animation and not to the document: whether the error at
channels[i].sampler is emitted is the same for any two document roots,
and it is determined exactly by the out-of-bounds test of channel i
against the samplers of the owning Animation. -/
theorem claim_C6_locally_scoped_check (a : Animation) (path : JsonPath)
    (i : Nat) (root1 root2 : Root) :
    (Animation.channelError path i ∈ a.validate root1 path [] ↔
      Animation.channelError path i ∈ a.validate root2 path []) ∧
    (Animation.channelError path i ∈ a.validate root1 path [] ↔
      a.channelOOB i = true) := by
  constructor
  · rw [mem_validate_iff, mem_validate_iff]
  · exact mem_validate_iff a root1 path i

/-- Claim C7: the validate of Channel is a nop: for every channel,
document root, path and sink it emits no error and leaves the sink
unchanged. -/
theorem claim_C7_channel_validate_nop (c : Channel) (root : Root)
    (path : JsonPath) (sink : List Error) :
    Channel.validate c root path sink = sink := rfl

/-- Claim C8: parsing a Sampler whose source representation omits the
interpolation field yields a Sampler whose interpolation string equals
LINEAR. -/
theorem claim_C8_interpolation_defaults_to_linear (fields : List (String × Json))
    (hni : ∀ kv ∈ fields, kv.1 ≠ "interpolation") (s : Sampler)
    (h : Sampler.deserialize (Json.obj fields) = Except.ok s) :
    s.interpolation = "LINEAR" :=
  sampler_omitted_interp_default fields hni s h

/-- Witness for claim C8, on a concrete source carrying only the two
required accessor indices. -/
theorem claim_C8_witness :
    (∀ kv ∈ [(("input" : String), Json.num 0), (("output" : String), Json.num 1)],
      kv.1 ≠ "interpolation") ∧
    ({ input := ⟨0⟩, interpolation := "LINEAR", output := ⟨1⟩ } : Sampler).interpolation
      = "LINEAR" :=
  ⟨by decide,
   claim_C8_interpolation_defaults_to_linear
     [("input", Json.num 0), ("output", Json.num 1)] (by decide)
     { input := ⟨0⟩, interpolation := "LINEAR", output := ⟨1⟩ } rfl⟩

/-- Claim C9: deserializing an Animation, Channel, Target or Sampler
record from a source object containing a field name the record does not
declare fails during parsing. -/
theorem claim_C9_unknown_fields_rejected (fields : List (String × Json))
    (k : String) (v : Json) (hmem : (k, v) ∈ fields) :
    (k ∉ animationFieldNames →
      exceptOk (Animation.deserialize (Json.obj fields)) = false) ∧
    (k ∉ channelFieldNames →
      exceptOk (Channel.deserialize (Json.obj fields)) = false) ∧
    (k ∉ targetFieldNames →
      exceptOk (Target.deserialize (Json.obj fields)) = false) ∧
    (k ∉ samplerFieldNames →
      exceptOk (Sampler.deserialize (Json.obj fields)) = false) :=
  ⟨fun hk => animation_unknown_not_ok fields k v hmem hk,
   fun hk => channel_unknown_not_ok fields k v hmem hk,
   fun hk => target_unknown_not_ok fields k v hmem hk,
   fun hk => sampler_unknown_not_ok fields k v hmem hk⟩

/-- Witness for claim C9, on a concrete object whose single field name is
declared by none of the four records. -/
theorem claim_C9_witness :
    exceptOk (Animation.deserialize (Json.obj [("oops", Json.null)])) = false ∧
    exceptOk (Channel.deserialize (Json.obj [("oops", Json.null)])) = false ∧
    exceptOk (Target.deserialize (Json.obj [("oops", Json.null)])) = false ∧
    exceptOk (Sampler.deserialize (Json.obj [("oops", Json.null)])) = false :=
  ⟨(claim_C9_unknown_fields_rejected [("oops", Json.null)] "oops" Json.null
      (List.mem_singleton.mpr rfl)).1 (by decide),
   (claim_C9_unknown_fields_rejected [("oops", Json.null)] "oops" Json.null
      (List.mem_singleton.mpr rfl)).2.1 (by decide),
   (claim_C9_unknown_fields_rejected [("oops", Json.null)] "oops" Json.null
      (List.mem_singleton.mpr rfl)).2.2.1 (by decide),
   (claim_C9_unknown_fields_rejected [("oops", Json.null)] "oops" Json.null
      (List.mem_singleton.mpr rfl)).2.2.2 (by decide)⟩

/-- Claim C10: the extension containers accept and discard arbitrary
unknown fields, while the enclosing records still reject unknown fields
at their own level. -/
theorem claim_C10_extensions_accept_unknown (fields : List (String × Json))
    (h : ∀ kv ∈ fields, kv.1 ≠ "_allow_unknown_fields") :
    AnimationExtensions.deserialize (Json.obj fields) = Except.ok {} ∧
    ChannelExtensions.deserialize (Json.obj fields) = Except.ok {} ∧
    TargetExtensions.deserialize (Json.obj fields) = Except.ok {} ∧
    SamplerExtensions.deserialize (Json.obj fields) = Except.ok {} ∧
    (∀ (fields2 : List (String × Json)) (k : String) (v : Json),
      (k, v) ∈ fields2 →
      (k ∉ animationFieldNames →
        exceptOk (Animation.deserialize (Json.obj fields2)) = false) ∧
      (k ∉ channelFieldNames →
        exceptOk (Channel.deserialize (Json.obj fields2)) = false) ∧
      (k ∉ targetFieldNames →
        exceptOk (Target.deserialize (Json.obj fields2)) = false) ∧
      (k ∉ samplerFieldNames →
        exceptOk (Sampler.deserialize (Json.obj fields2)) = false)) :=
  ⟨animationExtensions_fields_ok fields h,
   channelExtensions_fields_ok fields h,
   targetExtensions_fields_ok fields h,
   samplerExtensions_fields_ok fields h,
   fun fields2 k v hmem =>
     ⟨fun hk => animation_unknown_not_ok fields2 k v hmem hk,
      fun hk => channel_unknown_not_ok fields2 k v hmem hk,
      fun hk => target_unknown_not_ok fields2 k v hmem hk,
      fun hk => sampler_unknown_not_ok fields2 k v hmem hk⟩⟩

/-- Witness for claim C10: a concrete extensions object holding only an
undeclared field parses successfully for all four extension containers,
while the same field name at record level is rejected. -/
theorem claim_C10_witness :
    (∀ kv ∈ [(("foo" : String), Json.num 1)], kv.1 ≠ "_allow_unknown_fields") ∧
    AnimationExtensions.deserialize (Json.obj [("foo", Json.num 1)]) = Except.ok {} ∧
    SamplerExtensions.deserialize (Json.obj [("foo", Json.num 1)]) = Except.ok {} ∧
    exceptOk (Animation.deserialize (Json.obj [("foo", Json.num 1)])) = false :=
  ⟨by decide,
   (claim_C10_extensions_accept_unknown [("foo", Json.num 1)] (by decide)).1,
   (claim_C10_extensions_accept_unknown [("foo", Json.num 1)] (by decide)).2.2.2.1,
   (claim_C10_extensions_accept_unknown [("foo", Json.num 1)]
      (by decide)).2.2.2.2 [("foo", Json.num 1)] "foo" (Json.num 1)
      (List.mem_singleton.mpr rfl) |>.1 (by decide)⟩

end Gltf
